import Mathlib

/-!
Verification of the hybrid retrieval-and-ranking pipeline implemented by
`search_transcripts` in `backend-app-agentcore-runtime-deployment/app.py`.

The Python function is embedded shallowly:
* numeric scores are exact rationals (`ℚ`);
* Python strings are Lean `String`s, with Python's string primitives
  (`str.count`, `str.split`, `str.split('.')`, `str.lower`, `str.strip`,
  `'. '.join`, `in`) modelled character-by-character below;
* the three external effects (boto3 client construction, the Bedrock
  embedding call, and the `query_vectors` call) are an environment record
  of `Except`-valued outcomes, and the pipeline additionally returns the
  trace of `topK` values it passed to `query_vectors`;
* Python's stable `list.sort(key=..., reverse=True)` is modelled by
  `List.insertionSort` with the "greater-or-equal hybrid score" relation,
  which is stable in exactly the same sense.
-/

/-- Python `sub.isPrefixOf`-style helper with fuel, implementing the
non-overlapping substring count of `str.count`: when `sub` matches at the
current position, scanning resumes after the match.  The fuel argument is
the length of the scanned text, which bounds the number of steps. -/
def pyCountGo (sub : List Char) : Nat → List Char → Nat
  | 0, _ => 0
  | _ + 1, [] => 0
  | fuel + 1, c :: rest =>
    if sub.isPrefixOf (c :: rest) then
      1 + pyCountGo sub fuel (List.drop sub.length (c :: rest))
    else
      pyCountGo sub fuel rest

/-- Python `s.count(sub)`: number of non-overlapping occurrences of `sub`
in `s`; for the empty pattern Python returns `len(s) + 1`. -/
def pyCount (s sub : String) : Nat :=
  if sub.toList.isEmpty then s.toList.length + 1
  else pyCountGo sub.toList s.toList.length s.toList

/-- Split a character list at every character satisfying `p`, keeping empty
segments (the splitting behaviour of Python `str.split(sep)`). -/
def splitCharsBy (p : Char → Bool) : List Char → List (List Char)
  | [] => [[]]
  | c :: rest =>
    let r := splitCharsBy p rest
    if p c then [] :: r
    else
      match r with
      | [] => [[c]]
      | h :: t => (c :: h) :: t

/-- Python `s.split('.')`: split on every `'.'`, keeping empty segments. -/
def splitDot (s : String) : List String :=
  (splitCharsBy (fun c => c = '.') s.toList).map String.mk

/-- Python `s.split()` (no argument): whitespace-separated tokens, with
empty segments discarded. -/
def pyTokens (s : String) : List String :=
  ((splitCharsBy Char.isWhitespace s.toList).map String.mk).filter (fun t => t ≠ "")

/-- Python `s.lower()` (character-wise lowering, as for ASCII text). -/
def pyLower (s : String) : String :=
  String.mk (s.toList.map Char.toLower)

/-- Python `s.strip()`: remove leading and trailing whitespace. -/
def pyStrip (s : String) : String :=
  String.mk (((s.toList.dropWhile Char.isWhitespace).reverse.dropWhile Char.isWhitespace).reverse)

/-- Python `sub in s` on strings (substring containment), which for any
pattern agrees with `s.count(sub) > 0`. -/
def pyInStr (sub s : String) : Bool :=
  0 < pyCount s sub

/-- Python `max(gen, default=d)`: `d` on an empty list, otherwise the
maximum of the elements. -/
def pyMax (l : List ℚ) (dflt : ℚ) : ℚ :=
  match l with
  | [] => dflt
  | x :: xs => xs.foldl max x

/-- Python `dict.get(k, dflt)` for the string-valued metadata mappings. -/
def mget (md : List (String × String)) (k dflt : String) : String :=
  match md.find? (fun kv => kv.1 = k) with
  | some kv => kv.2
  | none => dflt

/-- `leadership_terms` from `search_transcripts` (app.py line 81). -/
def leadership_terms : List String :=
  ["ciso", "leader", "leadership", "executive", "manager", "governance",
   "strategy", "compliance", "policy", "risk", "identity", "security",
   "authentication", "authorization"]

/-- `technical_terms` from `search_transcripts` (app.py line 82). -/
def technical_terms : List String :=
  ["engineer", "developer", "implementation", "api", "code", "technical",
   "tool", "sdk", "programming", "configuration", "mcp", "bedrock", "cognito"]

/-- `leadership_conf` (app.py line 83):
`sum(query_lower.count(term) for term in leadership_terms) / max(1, len(query_lower.split()))`. -/
def leadership_conf (query : String) : ℚ :=
  (((leadership_terms.map (fun t => pyCount (pyLower query) t)).sum : Nat) : ℚ) /
    ((max 1 (pyTokens (pyLower query)).length : Nat) : ℚ)

/-- `technical_conf` (app.py line 84). -/
def technical_conf (query : String) : ℚ :=
  (((technical_terms.map (fun t => pyCount (pyLower query) t)).sum : Nat) : ℚ) /
    ((max 1 (pyTokens (pyLower query)).length : Nat) : ℚ)

/-- The three persona values the classifier can produce. -/
inductive Persona where
  | leadership
  | technical
  | general
deriving DecidableEq

/-- Persona selection (app.py line 85):
`"leadership" if leadership_conf > technical_conf else "technical" if technical_conf > leadership_conf else "general"`. -/
def personaOf (query : String) : Persona :=
  if technical_conf query < leadership_conf query then Persona.leadership
  else if leadership_conf query < technical_conf query then Persona.technical
  else Persona.general

/-- `semantic_weight` (app.py line 90): 0.8 / 0.6 / 0.7 by persona. -/
def semantic_weight : Persona → ℚ
  | Persona.leadership => 8 / 10
  | Persona.technical => 6 / 10
  | Persona.general => 7 / 10

/-- `keyword_weight` (app.py line 91): `1.0 - semantic_weight - 0.05`. -/
def keyword_weight (p : Persona) : ℚ :=
  1 - semantic_weight p - 5 / 100

/-- The fixed synonym table (app.py lines 126-133). -/
def synonymsOf (kw : String) : List String :=
  if kw = "ciso" then ["chief information security officer", "security officer"]
  else if kw = "ai" then ["artificial intelligence", "machine learning"]
  else if kw = "security" then ["cybersecurity", "protection", "secure"]
  else if kw = "agentic" then ["agent", "autonomous", "intelligent"]
  else if kw = "leader" then ["executive", "manager", "director"]
  else if kw = "engineer" then ["developer", "programmer", "technical"]
  else []

/-- `keywords` (app.py line 125): whitespace tokens of the lowered query of
length at least 2. -/
def keywordsOf (query : String) : List String :=
  (pyTokens (pyLower query)).filter (fun kw => 2 ≤ kw.length)

/-- `all_keywords` (app.py line 134): the keywords followed by their
synonym expansions. -/
def allKeywordsOf (query : String) : List String :=
  keywordsOf query ++ (keywordsOf query).flatMap synonymsOf

/-- One raw match returned by `query_vectors`: `key`, optional `distance`
(Python falls back to `1.0` when absent) and the string-valued metadata. -/
structure RawMatch where
  key : String
  distance : Option ℚ
  metadata : List (String × String)
deriving DecidableEq

/-- One scored candidate, mirroring the candidate dicts built at
app.py lines 159-168.  `hybrid_score` is filled in by the normalization
step (Python adds the key there); it starts at 0. -/
structure Candidate where
  doc_id : String
  content : String
  metadata : List (String × String)
  summary : String
  semantic_score : ℚ
  keyword_score : ℚ
  metadata_score : ℚ
  matched_terms : List String
  hybrid_score : ℚ
deriving DecidableEq

/-- Summary truncation (app.py lines 146-147):
`sentences = summary.split('.')` then
`'. '.join(sentences[:2]).strip() + ('.' if sentences else '')`. -/
def truncSummary (summary : String) : String :=
  let sentences := splitDot summary
  pyStrip (String.intercalate ". " (sentences.take 2)) ++
    (if sentences.isEmpty then "" else ".")

/-- The loop body of app.py lines 137-168 for one raw match: semantic,
keyword and metadata scores plus matched terms. -/
def scoreMatch (persona : Persona) (allKw : List String) (m : RawMatch) : Candidate :=
  let content := mget m.metadata "source_text" ""
  let content_lower := pyLower content
  let sem_score : ℚ := 1 - m.distance.getD 1
  let kw_score : ℚ :=
    (((allKw.map (fun kw => pyCount content_lower kw)).sum : Nat) : ℚ) /
      ((max 1 (pyTokens content_lower).length : Nat) : ℚ)
  let summary := truncSummary (mget m.metadata "Video Transcript Summary" "No summary available.")
  let topics := pyLower (mget m.metadata "When Was Each Topic Discussed" "")
  let combined_text := content_lower ++ " " ++ pyLower summary ++ " " ++ topics
  let metadata_score : ℚ :=
    match persona with
    | Persona.leadership =>
      (((leadership_terms.map (fun t => pyCount combined_text t)).sum : Nat) : ℚ) /
        ((max 1 (pyTokens combined_text).length : Nat) : ℚ)
    | Persona.technical =>
      (((technical_terms.map (fun t => pyCount combined_text t)).sum : Nat) : ℚ) /
        ((max 1 (pyTokens combined_text).length : Nat) : ℚ)
    | Persona.general => 0
  let matched_terms :=
    match persona with
    | Persona.leadership => leadership_terms.filter (fun t => pyInStr t combined_text)
    | Persona.technical => technical_terms.filter (fun t => pyInStr t combined_text)
    | Persona.general => []
  { doc_id := m.key
    content := content
    metadata := m.metadata
    summary := summary
    semantic_score := sem_score
    keyword_score := kw_score
    metadata_score := metadata_score
    matched_terms := matched_terms
    hybrid_score := 0 }

/-- The candidate list built from one vector response (app.py loop at
lines 137-168, duplicated verbatim at lines 227-256). -/
def buildCandidates (persona : Persona) (allKw : List String) (ms : List RawMatch) : List Candidate :=
  ms.map (scoreMatch persona allKw)

/-- `max_kw` (app.py line 171): `max((c['keyword_score'] ...), default=0.0)`. -/
def maxKwOf (cs : List Candidate) : ℚ :=
  pyMax (cs.map (fun c => c.keyword_score)) 0

/-- `max_meta` (app.py line 172). -/
def maxMetaOf (cs : List Candidate) : ℚ :=
  pyMax (cs.map (fun c => c.metadata_score)) 0

/-- `norm_kw` (app.py line 174): batch-max normalization with a zero guard. -/
def normKwOf (cs : List Candidate) (c : Candidate) : ℚ :=
  if 0 < maxKwOf cs then c.keyword_score / maxKwOf cs else 0

/-- `norm_meta` (app.py line 175). -/
def normMetaOf (cs : List Candidate) (c : Candidate) : ℚ :=
  if 0 < maxMetaOf cs then c.metadata_score / maxMetaOf cs else 0

/-- The normalize-and-blend loop (app.py lines 173-176):
`hybrid_score = semantic_weight*semantic + keyword_weight*norm_kw + 0.05*norm_meta`. -/
def normalizeBlend (sw kw : ℚ) (cs : List Candidate) : List Candidate :=
  cs.map (fun c =>
    { c with hybrid_score := sw * c.semantic_score + kw * normKwOf cs c + (5 / 100) * normMetaOf cs c })

/-- Raw leadership-term count in a candidate's content (app.py line 182). -/
def leadCount (c : Candidate) : Nat :=
  (leadership_terms.map (fun t => pyCount (pyLower c.content) t)).sum

/-- Raw technical-term count in a candidate's content (app.py line 182). -/
def techCount (c : Candidate) : Nat :=
  (technical_terms.map (fun t => pyCount (pyLower c.content) t)).sum

/-- The clustering partition predicate (app.py line 182): leadership-leaning
iff the leadership-term count is at least the technical-term count. -/
def isLeadershipLeaning (c : Candidate) : Bool :=
  techCount c ≤ leadCount c

/-- The comparison used by every `list.sort(key=lambda x: x['hybrid_score'],
reverse=True)` call: descending hybrid score. -/
def hsGe (a b : Candidate) : Prop :=
  b.hybrid_score ≤ a.hybrid_score

instance : DecidableRel hsGe := fun a b =>
  inferInstanceAs (Decidable (b.hybrid_score ≤ a.hybrid_score))

instance : IsTotal Candidate hsGe :=
  ⟨fun a b => le_total b.hybrid_score a.hybrid_score⟩

instance : IsTrans Candidate hsGe :=
  ⟨fun _ _ _ h1 h2 => le_trans h2 h1⟩

/-- Python's stable in-place sort by descending hybrid score, modelled by
stable insertion sort. -/
def pySortDesc (cs : List Candidate) : List Candidate :=
  List.insertionSort hsGe cs

/-- The diversity clustering step (app.py lines 181-193): split into
leadership-leaning and the rest, then pick the slate. -/
def selectTopDocs (persona : Persona) (cs : List Candidate) : List Candidate :=
  let leadership_candidates := cs.filter isLeadershipLeaning
  let technical_candidates := cs.filter (fun c => decide (c ∉ leadership_candidates))
  if persona = Persona.leadership ∧ leadership_candidates ≠ [] then
    let sortedLead := pySortDesc leadership_candidates
    let top_docs := sortedLead.take 2
    if top_docs.length < 2 then
      match pySortDesc technical_candidates with
      | t1 :: _ => top_docs ++ [t1]
      | [] => top_docs
    else top_docs
  else
    (pySortDesc cs).take 5

/-- One surviving result entry (app.py lines 211-216). -/
structure ResultEntry where
  doc_id : String
  links : List (String × String)
  hybrid_score : ℚ
  summary : String
deriving DecidableEq

/-- Link-field usability test (app.py line 208):
`value and value.lower() not in ["not available", ""]`. -/
def usableLinkVal (v : String) : Bool :=
  v ≠ "" ∧ pyLower v ∉ (["not available", ""] : List String)

/-- The four fixed link fields in loop order (app.py lines 202-207). -/
def linkFields (md : List (String × String)) : List (String × String) :=
  [("external_youtube_link", mget md "External Youtube Link" ""),
   ("content_link", mget md "Content Link" ""),
   ("deck_link", mget md "Deck Link" ""),
   ("internal_broadcast_link", mget md "Internal Broadcast Video Link" "")]

/-- The `links` mapping kept for a candidate: exactly the usable fields. -/
def extractLinks (md : List (String × String)) : List (String × String) :=
  (linkFields md).filter (fun kv => usableLinkVal kv.2)

/-- The result entry built for a surviving candidate (app.py lines 211-216). -/
def mkResultEntry (d : Candidate) : ResultEntry :=
  { doc_id := d.doc_id
    links := extractLinks d.metadata
    hybrid_score := d.hybrid_score
    summary := d.summary }

/-- The link-filter loop (app.py lines 198-216, repeated at 282-300):
keep a candidate only if its `links` mapping is non-empty. -/
def collectValid (docs : List Candidate) : List ResultEntry :=
  docs.filterMap (fun d =>
    if extractLinks d.metadata ≠ [] then some (mkResultEntry d) else none)

/-- One full scoring → clustering → link-filter pass over a vector
response, for the query-derived parameters.  The Python code runs this
block twice (lines 122-217 and the verbatim copy at lines 226-300). -/
def passValid (query : String) (ms : List RawMatch) : List ResultEntry :=
  let persona := personaOf query
  collectValid (selectTopDocs persona
    (normalizeBlend (semantic_weight persona) (keyword_weight persona)
      (buildCandidates persona (allKeywordsOf query) ms)))

/-- A Python exception raised by an external call: either a botocore
`ClientError` or any other exception. -/
inductive PyErr where
  | clientError (s : String)
  | exception (s : String)
deriving DecidableEq

/-- The message text produced by the two top-level handlers
(app.py lines 340-344): `f"ClientError: {e}"` and `f"Exception: {e}"`. -/
def errEnvelopeMsg : PyErr → String
  | PyErr.clientError s => "ClientError: " ++ s
  | PyErr.exception s => "Exception: " ++ s

/-- The behaviour of the external world during one `search_transcripts`
call: the outcome of boto3 client construction (app.py lines 70-71), of
the Bedrock embedding call (lines 96-104, `none` modelling a response
body without an `embedding` field), and of `query_vectors` as a function
of the requested `topK` (lines 117 and 224; the returned list models the
`vectors` field, with `[]` for an empty or absent field). -/
structure Env where
  mkClients : Except PyErr Unit
  embed : Except PyErr (Option (List ℚ))
  query_vectors : Nat → Except PyErr (List RawMatch)

/-- An entry of the success envelope's `results` list (app.py line 335):
the surviving entry without its `summary` field. -/
structure OutEntry where
  doc_id : String
  links : List (String × String)
  hybrid_score : ℚ
deriving DecidableEq

/-- The inner object of the returned `{"output": ...}` dict: a bare
`message` (sentinels and translated exceptions), the insufficient-results
failure (message, partial results and fixed recommendation, app.py
lines 305-312), or a success (results and recommendation, lines 333-338). -/
inductive Envelope where
  | msg (message : String)
  | insufficient (message : String) (results : List ResultEntry) (final_recommendation : String)
  | success (results : List OutEntry) (final_recommendation : String)
deriving DecidableEq

/-- The fixed recommendation of the insufficient-results envelope. -/
def insufficientRec : String :=
  "Insufficient relevant videos found to provide a recommendation."

/-- The `message` of the insufficient-results envelope (app.py line 308). -/
def insufficientMsg (n : Nat) : String :=
  "ERROR: Found only " ++ toString n ++ " video(s) with valid links; at least 2 required"

/-- Output preparation (app.py lines 303-338): fewer than 2 surviving
results yield the failure envelope; otherwise the top 2 survivors are
emitted with the synthesized recommendation.  (Python initializes
`final_recommendation = "No relevant results found."` and rebuilds it
under `if filtered_results:`, which is always true on this branch.) -/
def finalize (valid : List ResultEntry) : Envelope :=
  match valid with
  | r1 :: r2 :: _ =>
    let recommendation_level :=
      if 1 / 2 < r1.hybrid_score then "Highly recommended" else "Moderately relevant"
    let final_recommendation :=
      recommendation_level ++ ": Relevant for agentic AI security.\n" ++
      "- Video 1 (" ++ r1.doc_id ++ "): " ++ r1.summary ++ "\n" ++
      "- Video 2 (" ++ r2.doc_id ++ "): " ++ r2.summary ++ "\n" ++
      "Start with Video 1 for its focus on AI agent security."
    Envelope.success
      [⟨r1.doc_id, r1.links, r1.hybrid_score⟩, ⟨r2.doc_id, r2.links, r2.hybrid_score⟩]
      final_recommendation
  | _ => Envelope.insufficient (insufficientMsg valid.length) valid insufficientRec

/-- How far one run gets before the final output step: halted with a
message (sentinel or translated exception), or reached the
`valid_results` state; the `Nat` list records the `topK` arguments of the
`query_vectors` calls attempted so far. -/
inductive Progress where
  | halted (message : String) (calls : List Nat)
  | reached (valid : List ResultEntry) (calls : List Nat)
deriving DecidableEq

/-- The first retrieval pass (app.py lines 94-217): embedding, the
`topK=10` vector query with its empty-response sentinel, then one
score-cluster-filter pass. -/
def firstPass (env : Env) (query : String) : Progress :=
  match env.embed with
  | Except.error e => Progress.halted (errEnvelopeMsg e) []
  | Except.ok none => Progress.halted "NO_RELEVANT_OUTPUT" []
  | Except.ok (some _) =>
    match env.query_vectors 10 with
    | Except.error e => Progress.halted (errEnvelopeMsg e) [10]
    | Except.ok ms =>
      if ms.isEmpty then Progress.halted "NO_RELEVANT_OUTPUT" [10]
      else Progress.reached (passValid query ms) [10]

/-- The pipeline through the adaptive retry (app.py lines 94-301): when
fewer than 2 valid results survive the first pass, `query_vectors` is
re-invoked once with `topK=15`; a non-empty retry response replaces the
valid results by a fresh pass, an empty one leaves them unchanged. -/
def runToValid (env : Env) (query : String) : Progress :=
  match firstPass env query with
  | Progress.halted m t => Progress.halted m t
  | Progress.reached vs t =>
    if vs.length < 2 then
      match env.query_vectors 15 with
      | Except.error e => Progress.halted (errEnvelopeMsg e) (t ++ [15])
      | Except.ok ms2 =>
        Progress.reached (if ms2.isEmpty then vs else passValid query ms2) (t ++ [15])
    else Progress.reached vs t

/-- The result of one `search_transcripts` call: the returned envelope and
the trace of `topK` values passed to `query_vectors`. -/
structure RunResult where
  out : Envelope
  calls : List Nat
deriving DecidableEq

/-- The body of the big `try` (app.py lines 77-344), whose handlers turn
every raised error into a message envelope. -/
def searchCore (env : Env) (query : String) : RunResult :=
  match runToValid env query with
  | Progress.halted m t => ⟨Envelope.msg m, t⟩
  | Progress.reached vs t => ⟨finalize vs, t⟩

/-- `search_transcripts` (app.py lines 59-344).  Client construction
(lines 69-73) is guarded by a `try` that catches only `ClientError`; any
other exception raised there escapes the function, which the
`Except.error` result models.  Every path inside the big `try` is caught
by the handlers at lines 340-344 and becomes an `Except.ok` envelope. -/
def search_transcripts (env : Env) (query : String) : Except PyErr RunResult :=
  match env.mkClients with
  | Except.error (PyErr.clientError s) =>
    Except.ok ⟨Envelope.msg ("ClientError: " ++ s), []⟩
  | Except.error (PyErr.exception s) => Except.error (PyErr.exception s)
  | Except.ok _ => Except.ok (searchCore env query)

instance {ε α : Type} [DecidableEq ε] [DecidableEq α] : DecidableEq (Except ε α) := fun a b =>
  match a, b with
  | Except.ok x, Except.ok y =>
    if h : x = y then isTrue (by simp [h]) else isFalse (by simp [h])
  | Except.error x, Except.error y =>
    if h : x = y then isTrue (by simp [h]) else isFalse (by simp [h])
  | Except.ok _, Except.error _ => isFalse (by simp)
  | Except.error _, Except.ok _ => isFalse (by simp)

/-! ### The summary transform as the specification words it -/

/-- The summary transform as the specification describes it: truncate to
the first two segments of splitting on a period, join back with a period
`"."`, and append a trailing period exactly when segments exist.  Stated
only for comparison with `truncSummary`, which embeds the code. -/
def truncSummarySpec (summary : String) : String :=
  let segs := splitDot summary
  String.intercalate "." (segs.take 2) ++ (if segs.isEmpty then "" else ".")

/-! ### Concrete inputs used by counterexamples and witnesses -/

/-- A raw match with empty content whose leadership and technical term
counts are both zero, so it is leadership-leaning by the tie rule, with a
distance of 0.9 and one usable link. -/
def mLead : RawMatch := ⟨"dL", some (9 / 10), [("External Youtube Link", "uL")]⟩

/-- A raw match whose content "api" makes it technical-leaning, with a
distance of 0.1 (hence a much higher semantic score) and one usable link. -/
def mTech : RawMatch := ⟨"dT", some (1 / 10), [("source_text", "api"), ("External Youtube Link", "uT")]⟩

/-- An environment whose first vector query returns the leadership-leaning
and the technical-leaning match; the query "risk" makes the persona
leadership, so the slate is one leadership candidate backfilled by the
technical one. -/
def envBackfill : Env :=
  { mkClients := Except.ok ()
    embed := Except.ok (some [1])
    query_vectors := fun k => if k = 10 then Except.ok [mLead, mTech] else Except.ok [] }

/-- The first success entry produced by `envBackfill` with query "risk". -/
def entLead : OutEntry := ⟨"dL", [("external_youtube_link", "uL")], 2 / 25⟩

/-- The second success entry produced by `envBackfill` with query "risk". -/
def entTech : OutEntry := ⟨"dT", [("external_youtube_link", "uT")], 18 / 25⟩

/-- The recommendation text produced by `envBackfill` with query "risk". -/
def recBackfill : String :=
  "Moderately relevant: Relevant for agentic AI security.\n- Video 1 (dL): No summary available..\n- Video 2 (dT): No summary available..\nStart with Video 1 for its focus on AI agent security."

/-- Two matches with usable links and distances 0.1 and 0.3. -/
def mOk1 : RawMatch := ⟨"d1", some (1 / 10), [("External Youtube Link", "u1")]⟩

/-- Second match with a usable link. -/
def mOk2 : RawMatch := ⟨"d2", some (3 / 10), [("External Youtube Link", "u2")]⟩

/-- An environment whose first vector query already yields two
link-bearing candidates, for a general-persona query. -/
def envTwoGood : Env :=
  { mkClients := Except.ok ()
    embed := Except.ok (some [1])
    query_vectors := fun k => if k = 10 then Except.ok [mOk1, mOk2] else Except.ok [] }

/-- The success entries and recommendation produced by `envTwoGood` "x". -/
def entOk1 : OutEntry := ⟨"d1", [("external_youtube_link", "u1")], 63 / 100⟩

/-- Second success entry produced by `envTwoGood` "x". -/
def entOk2 : OutEntry := ⟨"d2", [("external_youtube_link", "u2")], 49 / 100⟩

/-- The recommendation text produced by `envTwoGood` with query "x". -/
def recTwoGood : String :=
  "Highly recommended: Relevant for agentic AI security.\n- Video 1 (d1): No summary available..\n- Video 2 (d2): No summary available..\nStart with Video 1 for its focus on AI agent security."

/-- A raw match with no metadata at all: no usable link. -/
def mNoLink : RawMatch := ⟨"d0", some 1, []⟩

/-- An environment whose first vector query yields a single candidate
without links and whose retry returns an empty vector list. -/
def envRetryEmpty : Env :=
  { mkClients := Except.ok ()
    embed := Except.ok (some [1])
    query_vectors := fun k => if k = 10 then Except.ok [mNoLink] else Except.ok [] }

/-- An environment whose client construction raises an exception that is
not a `ClientError`. -/
def envCtorBoom : Env :=
  { mkClients := Except.error (PyErr.exception "boom")
    embed := Except.ok none
    query_vectors := fun _ => Except.ok [] }

/-- A candidate whose four link fields are all absent (empty metadata). -/
def candNoLinks : Candidate :=
  ⟨"d0", "", [], "summary", 0, 0, 0, [], 0⟩

/-! ### Helper lemmas -/

theorem splitCharsBy_ne_nil (p : Char → Bool) (l : List Char) : splitCharsBy p l ≠ [] := by
  induction l with
  | nil => simp [splitCharsBy]
  | cons c rest ih =>
    simp only [splitCharsBy]
    split
    · simp
    · split
      · simp
      · simp

theorem splitDot_ne_nil (s : String) : splitDot s ≠ [] := by
  simp [splitDot, splitCharsBy_ne_nil]

theorem foldl_max_le_init (l : List ℚ) (b : ℚ) : b ≤ l.foldl max b := by
  induction l generalizing b with
  | nil => simp
  | cons x xs ih => exact le_trans (le_max_left b x) (ih (max b x))

theorem mem_le_foldl_max (l : List ℚ) (b a : ℚ) (ha : a ∈ l) : a ≤ l.foldl max b := by
  induction l generalizing b with
  | nil => cases ha
  | cons x xs ih =>
    rcases List.mem_cons.mp ha with h | h
    · subst h
      exact le_trans (le_max_right b a) (foldl_max_le_init xs _)
    · exact ih _ h

theorem mem_le_pyMax (l : List ℚ) (d a : ℚ) (ha : a ∈ l) : a ≤ pyMax l d := by
  cases l with
  | nil => cases ha
  | cons x xs =>
    rcases List.mem_cons.mp ha with h | h
    · subst h
      exact foldl_max_le_init xs a
    · exact mem_le_foldl_max xs x a h

theorem foldl_max_all_zero (l : List ℚ) (b : ℚ) (hb : b = 0) (h : ∀ x ∈ l, x = 0) :
    l.foldl max b = 0 := by
  induction l generalizing b with
  | nil => simpa using hb
  | cons x xs ih =>
    have hx : x = 0 := h x (by simp)
    exact ih (max b x) (by simp [hb, hx]) (fun y hy => h y (by simp [hy]))

theorem pyMax_all_zero (l : List ℚ) (h : ∀ x ∈ l, x = 0) : pyMax l 0 = 0 := by
  cases l with
  | nil => rfl
  | cons x xs =>
    exact foldl_max_all_zero xs x (h x (by simp)) (fun y hy => h y (by simp [hy]))

theorem mem_collectValid {e : ResultEntry} {docs : List Candidate} :
    e ∈ collectValid docs ↔
      ∃ d, d ∈ docs ∧ extractLinks d.metadata ≠ [] ∧ e = mkResultEntry d := by
  simp only [collectValid, List.mem_filterMap]
  constructor
  · rintro ⟨d, hd, hf⟩
    by_cases hl : extractLinks d.metadata ≠ []
    · rw [if_pos hl] at hf
      exact ⟨d, hd, hl, (Option.some.injEq _ _ ▸ hf).symm⟩
    · rw [if_neg hl] at hf
      cases hf
  · rintro ⟨d, hd, hl, rfl⟩
    exact ⟨d, hd, by rw [if_pos hl]⟩

theorem collectValid_eq_map_filter (docs : List Candidate) :
    collectValid docs =
      (docs.filter (fun d => !(extractLinks d.metadata).isEmpty)).map mkResultEntry := by
  induction docs with
  | nil => rfl
  | cons d ds ih =>
    simp only [collectValid, ne_eq, ite_not] at ih
    by_cases h : extractLinks d.metadata = [] <;>
      simp [collectValid, List.filterMap_cons, List.filter_cons, List.isEmpty_iff, h, ih]

theorem collectValid_pairwise (docs : List Candidate) (h : docs.Pairwise hsGe) :
    (collectValid docs).Pairwise (fun a b : ResultEntry => b.hybrid_score ≤ a.hybrid_score) := by
  rw [collectValid_eq_map_filter]
  refine List.Pairwise.map mkResultEntry (fun a b hab => ?_)
    (h.sublist (List.filter_sublist docs))
  simpa [mkResultEntry] using hab

theorem pySortDesc_pairwise (cs : List Candidate) : (pySortDesc cs).Pairwise hsGe :=
  List.sorted_insertionSort hsGe cs

theorem passValid_pairwise (q : String) (ms : List RawMatch)
    (hp : personaOf q ≠ Persona.leadership) :
    (passValid q ms).Pairwise (fun a b : ResultEntry => b.hybrid_score ≤ a.hybrid_score) := by
  unfold passValid
  apply collectValid_pairwise
  unfold selectTopDocs
  rw [if_neg (by simp [hp])]
  exact (pySortDesc_pairwise _).sublist (List.take_sublist _ _)

theorem search_transcripts_ok (env : Env) (q : String) (hmk : env.mkClients = Except.ok ()) :
    search_transcripts env q = Except.ok (searchCore env q) := by
  simp only [search_transcripts, hmk]

theorem firstPass_reached (env : Env) (q : String) (vs : List ResultEntry) (t : List Nat)
    (h : firstPass env q = Progress.reached vs t) :
    t = [10] ∧ ∃ ms, env.query_vectors 10 = Except.ok ms ∧ ms ≠ [] ∧ vs = passValid q ms := by
  unfold firstPass at h
  cases hemb : env.embed with
  | error e => simp only [hemb] at h; exact Progress.noConfusion h
  | ok o =>
    cases o with
    | none => simp only [hemb] at h; exact Progress.noConfusion h
    | some emb =>
      simp only [hemb] at h
      cases hq : env.query_vectors 10 with
      | error e => simp only [hq] at h; exact Progress.noConfusion h
      | ok ms =>
        simp only [hq] at h
        by_cases hne : ms.isEmpty
        · rw [if_pos hne] at h
          exact absurd h (by simp)
        · rw [if_neg hne] at h
          injection h with h1 h2
          exact ⟨h2.symm, ms, rfl, fun hmsnil => hne (by simp [hmsnil]), h1.symm⟩

theorem runToValid_reached (env : Env) (q : String) (vs : List ResultEntry) (t : List Nat)
    (h : runToValid env q = Progress.reached vs t) :
    ∃ ms, vs = passValid q ms := by
  unfold runToValid at h
  cases hfp : firstPass env q with
  | halted m t0 => simp only [hfp] at h; exact Progress.noConfusion h
  | reached vs0 t0 =>
    obtain ⟨-, ms0, -, -, hvs0⟩ := firstPass_reached env q vs0 t0 hfp
    simp only [hfp] at h
    by_cases hlen : vs0.length < 2
    · rw [if_pos hlen] at h
      cases hq : env.query_vectors 15 with
      | error e => simp only [hq] at h; exact Progress.noConfusion h
      | ok ms2 =>
        simp only [hq] at h
        injection h with h1 h2
        by_cases hms2 : ms2.isEmpty
        · rw [if_pos hms2] at h1
          exact ⟨ms0, h1 ▸ hvs0⟩
        · rw [if_neg hms2] at h1
          exact ⟨ms2, h1.symm⟩
    · rw [if_neg hlen] at h
      injection h with h1 h2
      exact ⟨ms0, h1 ▸ hvs0⟩

theorem firstPass_halted_calls (env : Env) (q : String) (m : String) (t0 : List Nat)
    (h : firstPass env q = Progress.halted m t0) : t0 = [] ∨ t0 = [10] := by
  unfold firstPass at h
  cases hemb : env.embed with
  | error e =>
    simp only [hemb] at h
    injection h with h1 h2
    exact Or.inl h2.symm
  | ok o =>
    cases o with
    | none =>
      simp only [hemb] at h
      injection h with h1 h2
      exact Or.inl h2.symm
    | some emb =>
      simp only [hemb] at h
      cases hq : env.query_vectors 10 with
      | error e =>
        simp only [hq] at h
        injection h with h1 h2
        exact Or.inr h2.symm
      | ok ms =>
        simp only [hq] at h
        by_cases hne : ms.isEmpty
        · rw [if_pos hne] at h
          injection h with h1 h2
          exact Or.inr h2.symm
        · rw [if_neg hne] at h
          exact Progress.noConfusion h

theorem mem_passValid_links_ne_nil (q : String) (ms : List RawMatch) (e : ResultEntry)
    (he : e ∈ passValid q ms) : e.links ≠ [] := by
  unfold passValid at he
  obtain ⟨d, -, hne, rfl⟩ := mem_collectValid.mp he
  exact hne

theorem scoreMatch_keyword_nonneg (p : Persona) (allKw : List String) (m : RawMatch) :
    0 ≤ (scoreMatch p allKw m).keyword_score := by
  simp only [scoreMatch]
  positivity

theorem scoreMatch_metadata_nonneg (p : Persona) (allKw : List String) (m : RawMatch) :
    0 ≤ (scoreMatch p allKw m).metadata_score := by
  cases p <;> simp only [scoreMatch] <;> positivity

/-! ### Claim theorems -/

/-- C4: for every query string, the inferred persona is one of exactly
leadership, technical and general; it is leadership precisely when the
leadership confidence strictly exceeds the technical confidence,
technical precisely in the reverse case, and general precisely when the
two confidences are equal (including when both are zero, e.g. for the
empty query).  Persona inference is a total function with no failure
case. -/
theorem c4_persona_trichotomy (q : String) :
    (personaOf q = Persona.leadership ∨ personaOf q = Persona.technical ∨
      personaOf q = Persona.general) ∧
    (personaOf q = Persona.leadership ↔ technical_conf q < leadership_conf q) ∧
    (personaOf q = Persona.technical ↔ leadership_conf q < technical_conf q) ∧
    (personaOf q = Persona.general ↔ leadership_conf q = technical_conf q) := by
  unfold personaOf
  rcases lt_trichotomy (technical_conf q) (leadership_conf q) with h | h | h
  · rw [if_pos h]
    exact ⟨Or.inl rfl, ⟨fun _ => h, fun _ => rfl⟩,
      ⟨fun hc => Persona.noConfusion hc, fun hc => (lt_asymm h hc).elim⟩,
      ⟨fun hc => Persona.noConfusion hc,
        fun hc => absurd h (by rw [hc]; exact lt_irrefl _)⟩⟩
  · rw [if_neg (by rw [h]; exact lt_irrefl _), if_neg (by rw [h]; exact lt_irrefl _)]
    exact ⟨Or.inr (Or.inr rfl),
      ⟨fun hc => Persona.noConfusion hc,
        fun hc => absurd hc (by rw [h]; exact lt_irrefl _)⟩,
      ⟨fun hc => Persona.noConfusion hc,
        fun hc => absurd hc (by rw [h]; exact lt_irrefl _)⟩,
      ⟨fun _ => h.symm, fun _ => rfl⟩⟩
  · rw [if_neg (lt_asymm h), if_pos h]
    exact ⟨Or.inr (Or.inl rfl),
      ⟨fun hc => Persona.noConfusion hc, fun hc => (lt_asymm h hc).elim⟩,
      ⟨fun _ => h, fun _ => rfl⟩,
      ⟨fun hc => Persona.noConfusion hc,
        fun hc => absurd h (by rw [hc]; exact lt_irrefl _)⟩⟩

/-- C8: for every persona the blending weights form a convex combination:
`semantic_weight + keyword_weight + 0.05 = 1` exactly, where the semantic
weight is 0.8, 0.6 or 0.7 by persona and the keyword weight is defined as
`1 - semantic_weight - 0.05` (scores are modelled as exact rationals). -/
theorem c8_convex_weights (p : Persona) :
    semantic_weight p + keyword_weight p + 5 / 100 = 1 ∧
    keyword_weight p = 1 - semantic_weight p - 5 / 100 ∧
    semantic_weight Persona.leadership = 8 / 10 ∧
    semantic_weight Persona.technical = 6 / 10 ∧
    semantic_weight Persona.general = 7 / 10 := by
  refine ⟨?_, rfl, rfl, rfl, rfl⟩
  cases p <;> norm_num [semantic_weight, keyword_weight]

/-- C9 counterexample: the claim describes the truncated summary as the
first two period-separated segments joined back with a bare period.  The
code joins them with a period and a space (`'. '.join`) and strips the
result, so on the summary "A.B.C" the code produces "A. B." while the
claimed transform produces "A.B.". -/
theorem c9_counterexample :
    truncSummary "A.B.C" ≠ truncSummarySpec "A.B.C" ∧
    truncSummary "A.B.C" = "A. B." ∧ truncSummarySpec "A.B.C" = "A.B." := by
  with_unfolding_all decide

/-- C9 amended: the summary used in scoring and output is the metadata
summary truncated to its first two sentence-like segments (split on '.'),
joined back with the two-character separator '. ' (period and space),
stripped of surrounding whitespace, and with a trailing period always
appended: splitting any string on '.' yields at least one segment, so the
no-segments case of the conditional never occurs. -/
theorem c9_amended (s : String) :
    truncSummary s = pyStrip (String.intercalate ". " ((splitDot s).take 2)) ++ "." := by
  have h : ¬(splitDot s).isEmpty := by
    simp [List.isEmpty_iff, splitDot_ne_nil s]
  simp [truncSummary, h]

/-- C3 counterexample: when boto3 client construction raises an exception
that is not a `ClientError` (for instance a `BotoCoreError` such as
`NoRegionError`), `search_transcripts` propagates it to its caller: the
`try` around client construction catches only `ClientError`, and the body
runs before the broad handlers of the main `try` are in scope. -/
theorem c3_counterexample :
    search_transcripts envCtorBoom "any query" = Except.error (PyErr.exception "boom") := rfl

/-- C3 amended: `search_transcripts` propagates an exception to its caller
exactly when client construction raises a non-`ClientError` exception; in
every other case — including embedding failures, vector-index failures and
a `ClientError` during client construction — it returns a dict of the
uniform envelope shape, with failures converted to a structured message
field. -/
theorem c3_amended (env : Env) (q : String) :
    (∃ e, search_transcripts env q = Except.error e) ↔
      ∃ s, env.mkClients = Except.error (PyErr.exception s) := by
  cases hmk : env.mkClients with
  | ok u =>
    cases u
    rw [search_transcripts_ok env q hmk]
    constructor
    · rintro ⟨e, he⟩
      exact Except.noConfusion he
    · rintro ⟨s, hs⟩
      exact Except.noConfusion hs
  | error e =>
    cases e with
    | clientError s =>
      simp only [search_transcripts, hmk]
      constructor
      · rintro ⟨e2, he⟩
        exact Except.noConfusion he
      · rintro ⟨s2, hs⟩
        injection hs with hpe
        exact PyErr.noConfusion hpe
    | exception s =>
      simp only [search_transcripts, hmk]
      exact ⟨fun _ => ⟨s, rfl⟩, fun _ => ⟨PyErr.exception s, rfl⟩⟩

/-- C1: for every query (run with successfully constructed clients), a
success envelope — results plus final recommendation and no message — is
returned if and only if at least 2 link-bearing candidates survive
filtering after at most one retry (the pipeline reaches the
`valid_results` state with length at least 2); otherwise a failure
envelope is returned whose results list, when present, is exactly the
surviving partial list of fewer than 2 entries together with the fixed
recommendation text, and a success envelope never carries fewer than 2
results. -/
theorem c1_success_floor (env : Env) (q : String) (r : RunResult)
    (hmk : env.mkClients = Except.ok ())
    (h : search_transcripts env q = Except.ok r) :
    ((∃ rs rc, r.out = Envelope.success rs rc) ↔
      (∃ vs t, runToValid env q = Progress.reached vs t ∧ 2 ≤ vs.length)) ∧
    (∀ m vs rc, r.out = Envelope.insufficient m vs rc →
      vs.length < 2 ∧ (∃ t, runToValid env q = Progress.reached vs t) ∧
      rc = insufficientRec) ∧
    (∀ rs rc, r.out = Envelope.success rs rc → 2 ≤ rs.length) := by
  rw [search_transcripts_ok env q hmk] at h
  injection h with h
  subst h
  cases hrv : runToValid env q with
  | halted m t =>
    simp only [searchCore, hrv]
    refine ⟨⟨?_, ?_⟩, ?_, ?_⟩
    · rintro ⟨rs, rc, hout⟩
      exact Envelope.noConfusion hout
    · rintro ⟨vs, t2, hvt, hlen⟩
      exact Progress.noConfusion hvt
    · intro m2 vs rc hout
      exact Envelope.noConfusion hout
    · intro rs rc hout
      exact Envelope.noConfusion hout
  | reached vs t =>
    simp only [searchCore, hrv]
    rcases vs with - | ⟨v1, - | ⟨v2, rest⟩⟩
    · simp only [finalize]
      refine ⟨⟨?_, ?_⟩, ?_, ?_⟩
      · rintro ⟨rs, rc, hout⟩
        exact Envelope.noConfusion hout
      · rintro ⟨vs2, t2, hvt, hlen⟩
        injection hvt with h1 h2
        rw [← h1] at hlen
        simp at hlen
      · intro m2 vs2 rc hout
        injection hout with e1 e2 e3
        exact ⟨by rw [← e2]; simp, ⟨t, by rw [e2]⟩, e3.symm⟩
      · intro rs rc hout
        exact Envelope.noConfusion hout
    · simp only [finalize]
      refine ⟨⟨?_, ?_⟩, ?_, ?_⟩
      · rintro ⟨rs, rc, hout⟩
        exact Envelope.noConfusion hout
      · rintro ⟨vs2, t2, hvt, hlen⟩
        injection hvt with h1 h2
        rw [← h1] at hlen
        simp at hlen
      · intro m2 vs2 rc hout
        injection hout with e1 e2 e3
        exact ⟨by rw [← e2]; simp, ⟨t, by rw [e2]⟩, e3.symm⟩
      · intro rs rc hout
        exact Envelope.noConfusion hout
    · simp only [finalize]
      refine ⟨⟨fun _ => ⟨v1 :: v2 :: rest, t, rfl, by simp⟩, fun _ => ⟨_, _, rfl⟩⟩, ?_, ?_⟩
      · intro m2 vs2 rc hout
        exact Envelope.noConfusion hout
      · intro rs rc hout
        injection hout with e1 e2
        rw [← e1]
        simp

/-- C5: for every execution (with successfully constructed clients), at
most one retry of the vector query occurs: the trace of `topK` arguments
passed to `query_vectors` is one of `[]`, `[10]` and `[10, 15]`, and it is
`[10, 15]` — a single retry at `topK = 15` after the initial `topK = 10`
query — exactly when the first pass completed filtering with fewer than 2
valid link-bearing results; no second retry occurs even if the retried
search still yields fewer than 2. -/
theorem c5_single_retry (env : Env) (q : String) (r : RunResult)
    (hmk : env.mkClients = Except.ok ())
    (h : search_transcripts env q = Except.ok r) :
    (r.calls = [] ∨ r.calls = [10] ∨ r.calls = [10, 15]) ∧
    (r.calls = [10, 15] ↔
      ∃ vs, firstPass env q = Progress.reached vs [10] ∧ vs.length < 2) := by
  rw [search_transcripts_ok env q hmk] at h
  injection h with h
  subst h
  cases hfp : firstPass env q with
  | halted m t0 =>
    have hrv : runToValid env q = Progress.halted m t0 := by
      simp only [runToValid, hfp]
    simp only [searchCore, hrv]
    obtain ht0 | ht0 := firstPass_halted_calls env q m t0 hfp
    · subst ht0
      refine ⟨by simp, ⟨fun hc => List.noConfusion hc, ?_⟩⟩
      rintro ⟨vs, hr, -⟩
      exact Progress.noConfusion hr
    · subst ht0
      refine ⟨by simp, ⟨fun hc => by simp at hc, ?_⟩⟩
      rintro ⟨vs, hr, -⟩
      exact Progress.noConfusion hr
  | reached vs0 t0 =>
    obtain ⟨ht0, ms0, hq0, hms0ne, hvs0⟩ := firstPass_reached env q vs0 t0 hfp
    subst ht0
    by_cases hlen : vs0.length < 2
    · cases hq15 : env.query_vectors 15 with
      | error e =>
        have hrv : runToValid env q = Progress.halted (errEnvelopeMsg e) ([10] ++ [15]) := by
          simp only [runToValid, hfp, if_pos hlen, hq15]
        simp only [searchCore, hrv]
        exact ⟨by simp, ⟨fun _ => ⟨vs0, rfl, hlen⟩, fun _ => rfl⟩⟩
      | ok ms2 =>
        have hrv : runToValid env q =
            Progress.reached (if ms2.isEmpty then vs0 else passValid q ms2) ([10] ++ [15]) := by
          simp only [runToValid, hfp, if_pos hlen, hq15]
        simp only [searchCore, hrv]
        exact ⟨by simp, ⟨fun _ => ⟨vs0, rfl, hlen⟩, fun _ => rfl⟩⟩
    · have hrv : runToValid env q = Progress.reached vs0 [10] := by
        simp only [runToValid, hfp, if_neg hlen]
      simp only [searchCore, hrv]
      refine ⟨by simp, ⟨fun hc => by simp at hc, ?_⟩⟩
      rintro ⟨vs, hr, hlen2⟩
      injection hr with h1 h2
      rw [← h1] at hlen2
      exact absurd hlen2 hlen

/-- C10: when the retry is triggered (the first pass completed filtering
with fewer than 2 valid results) and the retried `topK = 15` vector query
returns an empty or absent vectors list, `search_transcripts` does not
return the `NO_RELEVANT_OUTPUT` sentinel used for a first-pass empty
response: it keeps the first pass's valid results unchanged and returns
the insufficient-results failure envelope containing exactly those
partial results. -/
theorem c10_retry_empty_keeps_partial (env : Env) (q : String) (vs : List ResultEntry)
    (hmk : env.mkClients = Except.ok ())
    (h1 : firstPass env q = Progress.reached vs [10])
    (h2 : vs.length < 2)
    (h3 : env.query_vectors 15 = Except.ok []) :
    search_transcripts env q =
      Except.ok ⟨Envelope.insufficient (insufficientMsg vs.length) vs insufficientRec, [10, 15]⟩ ∧
    (∀ t, search_transcripts env q ≠ Except.ok ⟨Envelope.msg "NO_RELEVANT_OUTPUT", t⟩) := by
  have hrv : runToValid env q = Progress.reached vs [10, 15] := by
    simp only [runToValid, h1, if_pos h2, h3, List.isEmpty_nil, if_true]
    rfl
  have hcore : searchCore env q =
      ⟨Envelope.insufficient (insufficientMsg vs.length) vs insufficientRec, [10, 15]⟩ := by
    simp only [searchCore, hrv]
    rcases vs with - | ⟨a, - | ⟨b, rest⟩⟩
    · rfl
    · rfl
    · simp only [List.length_cons] at h2
      omega
  rw [search_transcripts_ok env q hmk, hcore]
  refine ⟨rfl, fun t heq => ?_⟩
  injection heq with hh
  injection hh with ho hc
  exact Envelope.noConfusion ho

set_option maxRecDepth 10000 in
/-- C2 counterexample: in the leadership-persona backfill case the success
envelope's two entries are not ordered by descending hybrid score.  With
query "risk" (persona leadership) and two candidates — a leadership-leaning
one with semantic score 0.1 and a technical-leaning backfill with semantic
score 0.9 — the success results are [0.08, 0.72]: the first entry's
hybrid score is strictly below the second's. -/
theorem c2_counterexample :
    personaOf "risk" = Persona.leadership ∧
    search_transcripts envBackfill "risk" =
      Except.ok ⟨Envelope.success [entLead, entTech] recBackfill, [10]⟩ ∧
    entLead.hybrid_score < entTech.hybrid_score := by
  with_unfolding_all decide

/-- C2 amended: whenever `search_transcripts` returns a success envelope,
its results list has exactly 2 entries; the two entries are ordered by
descending hybrid score whenever the persona is not leadership (and the
slate is the plain top-5 sort).  In the leadership-persona case where a
technical-leaning backfill candidate is appended to the slate, the second
entry may carry a strictly higher hybrid score than the first. -/
theorem c2_amended_success_shape (env : Env) (q : String) (r : RunResult)
    (rs : List OutEntry) (rc : String)
    (hmk : env.mkClients = Except.ok ())
    (h : search_transcripts env q = Except.ok r)
    (ho : r.out = Envelope.success rs rc) :
    rs.length = 2 ∧
    (personaOf q ≠ Persona.leadership →
      rs.Pairwise (fun a b => b.hybrid_score ≤ a.hybrid_score)) := by
  rw [search_transcripts_ok env q hmk] at h
  injection h with h
  subst h
  cases hrv : runToValid env q with
  | halted m t =>
    simp only [searchCore, hrv] at ho
    exact Envelope.noConfusion ho
  | reached vs t =>
    simp only [searchCore, hrv] at ho
    obtain ⟨ms, hms⟩ := runToValid_reached env q vs t hrv
    rcases vs with - | ⟨v1, - | ⟨v2, rest⟩⟩
    · simp only [finalize] at ho
      exact Envelope.noConfusion ho
    · simp only [finalize] at ho
      exact Envelope.noConfusion ho
    · simp only [finalize] at ho
      injection ho with hrs hrc
      refine ⟨by rw [← hrs]; rfl, fun hp => ?_⟩
      have hpw : (v1 :: v2 :: rest).Pairwise
          (fun a b : ResultEntry => b.hybrid_score ≤ a.hybrid_score) := by
        rw [hms]
        exact passValid_pairwise q ms hp
      have h12 : v2.hybrid_score ≤ v1.hybrid_score :=
        (List.pairwise_cons.mp hpw).1 v2 (by simp)
      rw [← hrs]
      refine List.pairwise_cons.mpr ⟨?_, ?_⟩
      · intro a2 ha2
        rcases List.mem_singleton.mp ha2 with rfl
        exact h12
      · simp

/-- C6: a candidate whose four link metadata fields (External Youtube
Link, Content Link, Deck Link, Internal Broadcast Video Link) are all
absent, empty, or case-insensitively the placeholder "not available"
contributes no entry to the surviving results of the link filter (its
would-be entry is never a member); every surviving entry's links mapping
is exactly the usable fields of its candidate and is non-empty; and
every entry of a success envelope's results has a non-empty links
mapping. -/
theorem c6_link_filter (docs : List Candidate) :
    (∀ e ∈ collectValid docs, ∃ d, d ∈ docs ∧ e = mkResultEntry d ∧
      e.links = (linkFields d.metadata).filter (fun kv => usableLinkVal kv.2) ∧
      e.links ≠ []) ∧
    (∀ d ∈ docs, (∀ kv ∈ linkFields d.metadata, usableLinkVal kv.2 = false) →
      mkResultEntry d ∉ collectValid docs) ∧
    (∀ env q r, env.mkClients = Except.ok () → search_transcripts env q = Except.ok r →
      ∀ rs rc, r.out = Envelope.success rs rc → ∀ o ∈ rs, o.links ≠ []) := by
  refine ⟨?_, ?_, ?_⟩
  · intro e he
    obtain ⟨d, hd, hne, rfl⟩ := mem_collectValid.mp he
    exact ⟨d, hd, rfl, rfl, hne⟩
  · intro d hd hall hmem
    obtain ⟨d2, hd2, hne2, heq⟩ := mem_collectValid.mp hmem
    have hnil : extractLinks d.metadata = [] := by
      apply List.filter_eq_nil_iff.mpr
      intro kv hkv
      simp [hall kv hkv]
    have hlnk : (mkResultEntry d).links = [] := hnil
    rw [heq] at hlnk
    exact hne2 hlnk
  · intro env q r hmk h rs rc ho o hos
    rw [search_transcripts_ok env q hmk] at h
    injection h with h
    subst h
    cases hrv : runToValid env q with
    | halted m t =>
      simp only [searchCore, hrv] at ho
      exact Envelope.noConfusion ho
    | reached vs t =>
      simp only [searchCore, hrv] at ho
      obtain ⟨ms, hms⟩ := runToValid_reached env q vs t hrv
      rcases vs with - | ⟨v1, - | ⟨v2, rest⟩⟩
      · simp only [finalize] at ho
        exact Envelope.noConfusion ho
      · simp only [finalize] at ho
        exact Envelope.noConfusion ho
      · simp only [finalize] at ho
        injection ho with hrs hrc
        have hv1 : v1 ∈ passValid q ms := by
          rw [← hms]
          simp
        have hv2 : v2 ∈ passValid q ms := by
          rw [← hms]
          simp
        rw [← hrs] at hos
        rcases List.mem_cons.mp hos with rfl | hos2
        · exact mem_passValid_links_ne_nil q ms v1 hv1
        · rcases List.mem_singleton.mp hos2 with rfl
          exact mem_passValid_links_ne_nil q ms v2 hv2

/-- C7: for every batch of candidates scored in one pass, every
candidate's batch-normalized keyword score and metadata score is at most
1 (each is the raw score divided by the batch maximum, with a zero
guard), and every candidate's normalized score equals 0 when every raw
score of that kind in the batch is 0. -/
theorem c7_normalization (p : Persona) (allKw : List String) (ms : List RawMatch)
    (c : Candidate) (hc : c ∈ buildCandidates p allKw ms) :
    normKwOf (buildCandidates p allKw ms) c ≤ 1 ∧
    normMetaOf (buildCandidates p allKw ms) c ≤ 1 ∧
    ((∀ d ∈ buildCandidates p allKw ms, d.keyword_score = 0) →
      normKwOf (buildCandidates p allKw ms) c = 0) ∧
    ((∀ d ∈ buildCandidates p allKw ms, d.metadata_score = 0) →
      normMetaOf (buildCandidates p allKw ms) c = 0) := by
  have hkwle : c.keyword_score ≤ maxKwOf (buildCandidates p allKw ms) :=
    mem_le_pyMax _ 0 _ (List.mem_map_of_mem (fun c => c.keyword_score) hc)
  have hmetale : c.metadata_score ≤ maxMetaOf (buildCandidates p allKw ms) :=
    mem_le_pyMax _ 0 _ (List.mem_map_of_mem (fun c => c.metadata_score) hc)
  refine ⟨?_, ?_, ?_, ?_⟩
  · unfold normKwOf
    split
    · next hpos => exact (div_le_one hpos).mpr hkwle
    · norm_num
  · unfold normMetaOf
    split
    · next hpos => exact (div_le_one hpos).mpr hmetale
    · norm_num
  · intro hall
    have hmax : maxKwOf (buildCandidates p allKw ms) = 0 := by
      apply pyMax_all_zero
      rintro x hx
      obtain ⟨d, hd, rfl⟩ := List.mem_map.mp hx
      exact hall d hd
    rw [normKwOf, hmax]
    simp
  · intro hall
    have hmax : maxMetaOf (buildCandidates p allKw ms) = 0 := by
      apply pyMax_all_zero
      rintro x hx
      obtain ⟨d, hd, rfl⟩ := List.mem_map.mp hx
      exact hall d hd
    rw [normMetaOf, hmax]
    simp

/-! ### Witnesses -/

set_option maxRecDepth 10000 in
/-- Witness for C1: the environment returning two link-bearing candidates
produces a success envelope, and the pipeline indeed reaches a valid
state with at least 2 surviving results. -/
theorem c1_success_floor_witness :
    ∃ vs t, runToValid envTwoGood "x" = Progress.reached vs t ∧ 2 ≤ vs.length :=
  (c1_success_floor envTwoGood "x"
      ⟨Envelope.success [entOk1, entOk2] recTwoGood, [10]⟩ rfl
      (by with_unfolding_all decide)).1.mp ⟨[entOk1, entOk2], recTwoGood, rfl⟩

set_option maxRecDepth 10000 in
/-- Witness for the amended C2: on a general-persona success the two
entries are exactly 2 and in descending hybrid-score order. -/
theorem c2_amended_witness :
    ([entOk1, entOk2] : List OutEntry).length = 2 ∧
    ([entOk1, entOk2] : List OutEntry).Pairwise
      (fun a b => b.hybrid_score ≤ a.hybrid_score) :=
  have hc := c2_amended_success_shape envTwoGood "x"
    ⟨Envelope.success [entOk1, entOk2] recTwoGood, [10]⟩ [entOk1, entOk2] recTwoGood rfl
    (by with_unfolding_all decide) rfl
  ⟨hc.1, hc.2 (by with_unfolding_all decide)⟩

set_option maxRecDepth 10000 in
/-- Witness for C5: an environment whose first pass finds one candidate
without links triggers exactly one retry, so the first pass reached a
valid state with fewer than 2 results. -/
theorem c5_single_retry_witness :
    ∃ vs, firstPass envRetryEmpty "x" = Progress.reached vs [10] ∧ vs.length < 2 :=
  (c5_single_retry envRetryEmpty "x"
      ⟨Envelope.insufficient (insufficientMsg 0) [] insufficientRec, [10, 15]⟩ rfl
      (by with_unfolding_all decide)).2.mp rfl

set_option maxRecDepth 10000 in
/-- Witness for C6: a candidate with empty metadata (all four link fields
unusable) never appears among the surviving results. -/
theorem c6_link_filter_witness :
    mkResultEntry candNoLinks ∉ collectValid [candNoLinks] :=
  (c6_link_filter [candNoLinks]).2.1 candNoLinks (List.mem_singleton.mpr rfl)
    (by with_unfolding_all decide)

set_option maxRecDepth 10000 in
/-- Witness for C7: the normalized scores of the single candidate scored
from a metadata-free match are at most 1. -/
theorem c7_normalization_witness :
    normKwOf (buildCandidates Persona.general [] [mNoLink])
      (scoreMatch Persona.general [] mNoLink) ≤ 1 ∧
    normMetaOf (buildCandidates Persona.general [] [mNoLink])
      (scoreMatch Persona.general [] mNoLink) ≤ 1 :=
  have hc := c7_normalization Persona.general [] [mNoLink]
    (scoreMatch Persona.general [] mNoLink) (by with_unfolding_all decide)
  ⟨hc.1, hc.2.1⟩

set_option maxRecDepth 10000 in
/-- Witness for C10: with one linkless first-pass candidate and an empty
retry response, the envelope is the insufficient-results failure with the
empty partial list, not the `NO_RELEVANT_OUTPUT` sentinel. -/
theorem c10_retry_empty_witness :
    search_transcripts envRetryEmpty "x" =
      Except.ok ⟨Envelope.insufficient (insufficientMsg 0) [] insufficientRec, [10, 15]⟩ ∧
    search_transcripts envRetryEmpty "x" ≠
      Except.ok ⟨Envelope.msg "NO_RELEVANT_OUTPUT", [10, 15]⟩ :=
  have hc := c10_retry_empty_keeps_partial envRetryEmpty "x" [] rfl
    (by with_unfolding_all decide) (by decide) rfl
  ⟨hc.1, hc.2 [10, 15]⟩
